import Mathlib

/-!
Verification of the reolink-fakertsp-to-blueiris monitor daemon
(`src/monitor/monitor.py`) against its natural-language specification.

The Python source is shallowly embedded below:
* the watchdog event handler `ReolinkHandler.on_closed` (trigger debouncer),
* the OBS scene controller `ReolinkHandler.trigger_obs` as a trace of
  websocket API calls over an environment supplying poll results and an
  optional failure point,
* the retention sweeper `cleanup_old_files` over an explicit directory tree
  with per-entry failure flags (an `OSError` raised while deleting),
* the path calendar `get_current_date_path` and the two day-rollover checks
  of `start_monitoring`,
* the dependency health check `check_docker_health`.

Wall-clock times (`time.time()`) are modelled as integers; the cooldown and
retention arithmetic in the source uses only subtraction and comparison, so
nothing is lost by not modelling floats.
-/

/-- The slice of the INI-derived configuration dictionary (`load_config`)
that the verified components read. -/
structure Config where
  cooldown_seconds : Int
  retention_days : Int
  base_path : String
  container_staging_path : String
  error_video_name : String
  obs_media_input : String
  obs_scene_alert : String
  obs_scene_standby : String
  send_to : String
deriving Repr

/-! ## Trigger debouncer: `ReolinkHandler.__init__` / `ReolinkHandler.on_closed` -/

/-- Mutable state of `ReolinkHandler`: the `last_trigger_time` attribute. -/
structure HandlerState where
  last_trigger_time : Int
deriving DecidableEq, Repr

/-- `ReolinkHandler.__init__` sets `self.last_trigger_time = 0`. -/
def ReolinkHandler_init : HandlerState := ⟨0⟩

/-- A watchdog file-close notification: `event.src_path` (after `os.fsdecode`)
and `event.is_directory`. -/
structure FsEvent where
  src_path : String
  is_directory : Bool
deriving DecidableEq, Repr

/-- Python `str.endswith` on the decoded path. -/
def strEndsWith (s suf : String) : Bool := suf.data.isSuffixOf s.data

/-- The qualifying test of `on_closed`:
`not event.is_directory and src_path.endswith(".mp4")`. -/
def qualifies (ev : FsEvent) : Bool :=
  !ev.is_directory && strEndsWith ev.src_path ".mp4"

/-- `ReolinkHandler.on_closed`, with `time.time()` passed in as `now`.
Returns the new handler state together with the list of paths dispatched to
`trigger_obs` (the source dispatches at most one per event; on the accept
path it also calls `apply_permissions` on the file before dispatching). -/
def on_closed (cfg : Config) (st : HandlerState) (ev : FsEvent) (now : Int) :
    HandlerState × List String :=
  if qualifies ev then
    if now - st.last_trigger_time < cfg.cooldown_seconds then (st, [])
    else (⟨now⟩, [ev.src_path])
  else (st, [])

/-! ## Path calendar: `get_current_date_path` and the two rollover checks -/

/-- A `datetime.now()` value, restricted to the fields the source reads. -/
structure PyDate where
  year : Nat
  month : Nat
  day : Nat
deriving DecidableEq, Repr

/-- Two-digit zero-padded decimal rendering (strftime `%m` / `%d`; months and
days are always below 100). -/
def pad2 (n : Nat) : String := ⟨[Nat.digitChar (n / 10 % 10), Nat.digitChar (n % 10)]⟩

/-- Four-digit zero-padded decimal rendering (strftime `%Y` for years below
10000). -/
def pad4 (n : Nat) : String :=
  ⟨[Nat.digitChar (n / 1000 % 10), Nat.digitChar (n / 100 % 10),
    Nat.digitChar (n / 10 % 10), Nat.digitChar (n % 10)]⟩

/-- `datetime.now().strftime("%Y/%m/%d")`. -/
def strftimeYmd (d : PyDate) : String := pad4 d.year ++ "/" ++ pad2 d.month ++ "/" ++ pad2 d.day

/-- `get_current_date_path`: `os.path.join(base_path, now.strftime("%Y/%m/%d"))`. -/
def get_current_date_path (base : String) (d : PyDate) : String :=
  base ++ "/" ++ strftimeYmd d

/-- The rollover check of the waiting loop of `start_monitoring`
(`if get_current_date_path(...) != current_path: return`). -/
def waiting_rollover (base : String) (current_path : String) (now : PyDate) : Bool :=
  get_current_date_path base now ≠ current_path

/-- The rollover check of the watching loop of `start_monitoring`
(`if datetime.now().day != current_day`), which compares only the
day-of-month against the day captured when watching began. -/
def watching_rollover (current_day : Nat) (now : PyDate) : Bool :=
  now.day ≠ current_day

/-! ## Scene controller: `ReolinkHandler.trigger_obs`

The controller is embedded as the trace of `obsws` API calls it performs.
The environment supplies, for each poll index, the `media_state` reported by
`get_media_input_status`, and optionally the index of the API call that
raises an exception (`failAt`); `failAt = none` models a run in which no
remote-surface call errors.  The `obsws_python` request client also exposes
a `disconnect()` teardown call; it appears in the call alphabet so that the
trace records whether the source ever issues it. -/

/-- One remote-surface API call (plus client construction/teardown). -/
inductive ObsCall where
  | createClient : ObsCall
  | setInputSettings (input : String) (localFile : String) : ObsCall
  | setCurrentProgramScene (scene : String) : ObsCall
  | getMediaInputStatus (input : String) : ObsCall
  | triggerMediaInputAction (input : String) (action : String) : ObsCall
  | disconnect : ObsCall
deriving DecidableEq, Repr

/-- Environment of one `trigger_obs` run: which API call (by 0-based index)
raises, if any, and the `media_state` string reported by the k-th poll. -/
structure ObsEnv where
  failAt : Option Nat
  mediaState : Nat → String

/-- Progress of one `trigger_obs` run: calls made so far, the index of the
next call, and whether an exception has been raised (after which control is
in the `except` clause and no further API call happens). -/
structure ObsRun where
  calls : List ObsCall
  idx : Nat
  failed : Bool
deriving Repr

/-- Attempt one API call: a no-op once failed; otherwise the call is issued
(appended to the trace) and raises iff its index is the environment's
failure point. -/
def obsStep (env : ObsEnv) (c : ObsCall) (s : ObsRun) : ObsRun :=
  if s.failed then s
  else { calls := s.calls ++ [c], idx := s.idx + 1, failed := env.failAt = some s.idx }

/-- The terminal poll states of the wait loop:
`media_state in ["OBS_MEDIA_STATE_ENDED", "OBS_MEDIA_STATE_STOPPED"]`. -/
def terminalState (st : String) : Bool :=
  st == "OBS_MEDIA_STATE_ENDED" || st == "OBS_MEDIA_STATE_STOPPED"

/-- The `while True` wait loop of `trigger_obs`.  Each iteration polls the
media status, breaks on a terminal state, breaks when more than 60 seconds
have elapsed, and otherwise sleeps 0.5 s.  Elapsed time at the k-th timeout
check is modelled as `5 * k` tenths of a second (the loop body's `sleep(0.5)`
per iteration), so the timeout test `time.time() - start_timeout > 60`
becomes `5 * k > 600`; the check first fails strictly at `k = 121`, hence
`122` iterations always suffice and are passed as fuel. -/
def waitLoop (env : ObsEnv) (input : String) (k : Nat) (fuel : Nat) (s : ObsRun) : ObsRun :=
  match fuel with
  | 0 => s
  | fuel + 1 =>
    let s1 := obsStep env (.getMediaInputStatus input) s
    if s1.failed then s1
    else if terminalState (env.mediaState k) then s1
    else if 5 * k > 600 then s1
    else waitLoop env input (k + 1) fuel s1

/-- Host-filesystem facts about the candidate clip consulted by
`trigger_obs` before it opens the websocket: `os.path.exists(file_path)` and
`os.path.getsize(file_path)`. -/
structure ClipCandidate where
  path : String
  exists_ : Bool
  size : Nat
deriving DecidableEq, Repr

/-- The error-clip path in the remote surface's namespace:
`os.path.join(container_staging_path, error_video_name)` (the name is a bare
filename, so the join is plain concatenation with a separator). -/
def containerErrorPath (cfg : Config) : String :=
  cfg.container_staging_path ++ "/" ++ cfg.error_video_name

/-- The target-path resolution at the top of `trigger_obs`: substitute the
container error path iff the candidate is missing or zero-length.  It reads
only the configuration and the candidate, never the remote surface. -/
def resolveTarget (cfg : Config) (file : ClipCandidate) : String :=
  if !file.exists_ || file.size == 0 then containerErrorPath cfg else file.path

/-- `ReolinkHandler.trigger_obs`: resolve the target, then drive the remote
surface through clear → load → switch-to-alert → wait → revert-to-standby →
re-arm.  Returns the completed run; `.failed = true` means the `except`
clause ran (one operator alert is then emailed). -/
def trigger_obs (cfg : Config) (file : ClipCandidate) (env : ObsEnv) : ObsRun :=
  let target := resolveTarget cfg file
  let s1 := obsStep env .createClient ⟨[], 0, false⟩
  let s2 := obsStep env (.setInputSettings cfg.obs_media_input "") s1
  let s3 := obsStep env (.setInputSettings cfg.obs_media_input target) s2
  let s4 := obsStep env (.setCurrentProgramScene cfg.obs_scene_alert) s3
  let s5 := waitLoop env cfg.obs_media_input 0 122 s4
  let s6 := obsStep env (.setCurrentProgramScene cfg.obs_scene_standby) s5
  let s7 := obsStep env (.setInputSettings cfg.obs_media_input (containerErrorPath cfg)) s6
  obsStep env (.triggerMediaInputAction cfg.obs_media_input
    "OBS_WEBSOCKET_MEDIA_INPUT_ACTION_STOP") s7

/-! ## Theorems for claims C1 and C10 -/

/-- C1. For every cooldown window `c` and every pair of qualifying file-close
events at times `t1 < t2` (the first of which is accepted, so that
`last_trigger_time = t1`): if `t2 - t1 < c` the second event dispatches to
the Scene Controller zero times and leaves `last_trigger_time` unchanged; if
`t2 - t1 >= c` (including exact equality) it dispatches exactly once and sets
`last_trigger_time` to `t2`. -/
theorem cooldown_gate (cfg : Config) (st0 : HandlerState) (ev1 ev2 : FsEvent)
    (t1 t2 : Int) (hq1 : qualifies ev1 = true) (hq2 : qualifies ev2 = true)
    (hlt : t1 < t2) (hacc : (on_closed cfg st0 ev1 t1).2 ≠ []) :
    (t2 - t1 < cfg.cooldown_seconds →
      on_closed cfg (on_closed cfg st0 ev1 t1).1 ev2 t2 =
        ((on_closed cfg st0 ev1 t1).1, [])) ∧
    (cfg.cooldown_seconds ≤ t2 - t1 →
      on_closed cfg (on_closed cfg st0 ev1 t1).1 ev2 t2 = (⟨t2⟩, [ev2.src_path])) := by
  have hst1 : (on_closed cfg st0 ev1 t1).1 = ⟨t1⟩ := by
    unfold on_closed at hacc ⊢
    simp only [hq1, if_true] at hacc ⊢
    split at hacc
    · simp at hacc
    · next h => rw [if_neg h]
  rw [hst1]
  constructor
  · intro hdrop
    unfold on_closed
    simp only [hq2, if_true]
    split
    · rfl
    · omega
  · intro hpass
    unfold on_closed
    simp only [hq2, if_true]
    split
    · omega
    · rfl

/-- Witness for `cooldown_gate` at a concrete input: cooldown 10, first event
accepted at `t1 = 100`, second event at `t2 = 105` dropped (and the same
theorem also yields the acceptance branch vacuously). -/
theorem cooldown_gate_witness :
    let cfg : Config := ⟨10, 7, "/base", "/fakecam", "ERROR_ALERT.mp4",
      "Alert_Video", "Alert", "Standby", "root"⟩
    let ev : FsEvent := ⟨"/base/2024/01/01/clip1.mp4", false⟩
    (105 - 100 < cfg.cooldown_seconds →
      on_closed cfg (on_closed cfg ⟨0⟩ ev 100).1 ev 105 =
        ((on_closed cfg ⟨0⟩ ev 100).1, [])) ∧
    (cfg.cooldown_seconds ≤ 105 - 100 →
      on_closed cfg (on_closed cfg ⟨0⟩ ev 100).1 ev 105 =
        (⟨105⟩, [ev.src_path])) :=
  cooldown_gate _ _ _ _ 100 105 (by decide) (by decide) (by decide) (by decide)

/-- C10. A freshly constructed handler has `last_trigger_time = 0`, so the
first qualifying file-close event after a (re)start is accepted and
dispatched exactly once whenever its wall-clock time is at least
`cooldown_seconds`: the gate never carries over across process instances. -/
theorem first_event_accepted (cfg : Config) (ev : FsEvent) (t : Int)
    (hq : qualifies ev = true) (ht : cfg.cooldown_seconds ≤ t) :
    ReolinkHandler_init.last_trigger_time = 0 ∧
    on_closed cfg ReolinkHandler_init ev t = (⟨t⟩, [ev.src_path]) := by
  refine ⟨rfl, ?_⟩
  unfold on_closed ReolinkHandler_init
  simp only [hq, if_true]
  split
  · omega
  · rfl

/-- Witness for `first_event_accepted`: cooldown 10, first event at `t = 50`. -/
theorem first_event_accepted_witness :
    let cfg : Config := ⟨10, 7, "/base", "/fakecam", "ERROR_ALERT.mp4",
      "Alert_Video", "Alert", "Standby", "root"⟩
    let ev : FsEvent := ⟨"/base/2024/01/01/clip1.mp4", false⟩
    ReolinkHandler_init.last_trigger_time = 0 ∧
    on_closed cfg ReolinkHandler_init ev 50 = (⟨50⟩, [ev.src_path]) :=
  first_event_accepted _ _ 50 (by decide) (by decide)

/-! ## Helper lemmas about the scene-controller trace -/

/-- A sample configuration (the defaults of `load_config`). -/
def cfgEx : Config :=
  ⟨10, 7, "/home/camerauser/driveway", "/var/lib/fakecam", "ERROR_ALERT.mp4",
    "Alert_Video", "Alert", "Standby", "root"⟩

/-- A sample healthy candidate clip. -/
def clipEx : ClipCandidate := ⟨"/home/camerauser/driveway/2024/01/01/clip1.mp4", true, 500⟩

theorem obsStep_none (env : ObsEnv) (c : ObsCall) (s : ObsRun)
    (h : env.failAt = none) (hs : s.failed = false) :
    obsStep env c s = ⟨s.calls ++ [c], s.idx + 1, false⟩ := by
  simp [obsStep, hs, h]

theorem waitLoop_none (env : ObsEnv) (input : String) (h : env.failAt = none) :
    ∀ fuel k (s : ObsRun), s.failed = false → 121 < k + fuel → k ≤ 121 →
    ∃ p, 1 ≤ p ∧ k + p ≤ 122 ∧
      waitLoop env input k fuel s =
        ⟨s.calls ++ List.replicate p (.getMediaInputStatus input), s.idx + p, false⟩ ∧
      (terminalState (env.mediaState (k + p - 1)) = true ∨ 5 * (k + p - 1) > 600) := by
  intro fuel
  induction fuel with
  | zero => intro k s hs hkf hk; omega
  | succ fuel ih =>
    intro k s hs hkf hk
    have hstep := obsStep_none env (.getMediaInputStatus input) s h hs
    by_cases hterm : terminalState (env.mediaState k) = true
    · refine ⟨1, le_refl 1, by omega, ?_, ?_⟩
      · simp only [waitLoop, hstep, hterm]
        simp
      · left
        simpa using hterm
    · by_cases htime : 5 * k > 600
      · refine ⟨1, le_refl 1, by omega, ?_, ?_⟩
        · simp only [waitLoop, hstep]
          simp [hterm, htime]
        · right
          simpa using htime
      · obtain ⟨p, hp1, hp2, heq, hcond⟩ :=
          ih (k + 1) ⟨s.calls ++ [.getMediaInputStatus input], s.idx + 1, false⟩
            rfl (by omega) (by omega)
        refine ⟨p + 1, by omega, by omega, ?_, ?_⟩
        · simp only [waitLoop, hstep]
          simp only [hterm, htime, if_false]
          simp only [Bool.false_eq_true, if_false]
          rw [heq]
          simp [List.replicate_succ, List.append_assoc]
          omega
        · have hidx : k + (p + 1) - 1 = k + 1 + p - 1 := by omega
          rw [hidx]
          exact hcond

/-- With no API failure, the whole `trigger_obs` run is the fixed
clear/load/switch prelude, between 1 and 122 polls, and the
revert/re-arm/stop tail; the loop exits on a terminal polled state or on the
60-second timeout. -/
theorem trigger_obs_trace (cfg : Config) (file : ClipCandidate) (env : ObsEnv)
    (h : env.failAt = none) :
    ∃ p, 1 ≤ p ∧ p ≤ 122 ∧
      trigger_obs cfg file env =
        ⟨[.createClient,
          .setInputSettings cfg.obs_media_input "",
          .setInputSettings cfg.obs_media_input (resolveTarget cfg file),
          .setCurrentProgramScene cfg.obs_scene_alert]
          ++ List.replicate p (.getMediaInputStatus cfg.obs_media_input)
          ++ [.setCurrentProgramScene cfg.obs_scene_standby,
              .setInputSettings cfg.obs_media_input (containerErrorPath cfg),
              .triggerMediaInputAction cfg.obs_media_input
                "OBS_WEBSOCKET_MEDIA_INPUT_ACTION_STOP"],
          7 + p, false⟩ ∧
      (terminalState (env.mediaState (p - 1)) = true ∨ 5 * (p - 1) > 600) := by
  obtain ⟨p, hp1, hp2, heq, hcond⟩ :=
    waitLoop_none env cfg.obs_media_input h 122 0
      ⟨[.createClient,
        .setInputSettings cfg.obs_media_input "",
        .setInputSettings cfg.obs_media_input (resolveTarget cfg file),
        .setCurrentProgramScene cfg.obs_scene_alert], 4, false⟩
      rfl (by omega) (by omega)
  refine ⟨p, hp1, by omega, ?_, by simpa using hcond⟩
  simp only [trigger_obs, obsStep, h] at heq ⊢
  simp at heq ⊢
  rw [heq]
  simp [List.append_assoc]
  omega

/-- A sample no-failure environment whose first poll already reports that
playback ended. -/
def envEndedEx : ObsEnv := ⟨none, fun _ => "OBS_MEDIA_STATE_ENDED"⟩

/-- C2. When no remote-surface API call raises, every `trigger_obs` run
reaches the ReArming step on both exits of WaitingForEnd: the wait loop
performs between 1 and 122 polls and leaves either because the polled media
state is ended/stopped or because the 60-second hard timeout elapsed, and in
all cases the trace ends by switching back to standby, setting the alert
input's source to the container fallback error path, and issuing an explicit
stop action on it. -/
theorem controller_always_rearms (cfg : Config) (file : ClipCandidate) (env : ObsEnv)
    (h : env.failAt = none) :
    ∃ p, 1 ≤ p ∧ p ≤ 122 ∧
      (trigger_obs cfg file env).calls =
        [.createClient,
         .setInputSettings cfg.obs_media_input "",
         .setInputSettings cfg.obs_media_input (resolveTarget cfg file),
         .setCurrentProgramScene cfg.obs_scene_alert]
        ++ List.replicate p (.getMediaInputStatus cfg.obs_media_input)
        ++ [.setCurrentProgramScene cfg.obs_scene_standby,
            .setInputSettings cfg.obs_media_input (containerErrorPath cfg),
            .triggerMediaInputAction cfg.obs_media_input
              "OBS_WEBSOCKET_MEDIA_INPUT_ACTION_STOP"] ∧
      (terminalState (env.mediaState (p - 1)) = true ∨ 5 * (p - 1) > 600) := by
  obtain ⟨p, h1, h2, heq, hc⟩ := trigger_obs_trace cfg file env h
  exact ⟨p, h1, h2, by rw [heq], hc⟩

/-- Witness for `controller_always_rearms` on a concrete run (clip plays and
ends on the first poll). -/
theorem controller_always_rearms_witness :
    ∃ p, 1 ≤ p ∧ p ≤ 122 ∧
      (trigger_obs cfgEx clipEx envEndedEx).calls =
        [.createClient,
         .setInputSettings cfgEx.obs_media_input "",
         .setInputSettings cfgEx.obs_media_input (resolveTarget cfgEx clipEx),
         .setCurrentProgramScene cfgEx.obs_scene_alert]
        ++ List.replicate p (.getMediaInputStatus cfgEx.obs_media_input)
        ++ [.setCurrentProgramScene cfgEx.obs_scene_standby,
            .setInputSettings cfgEx.obs_media_input (containerErrorPath cfgEx),
            .triggerMediaInputAction cfgEx.obs_media_input
              "OBS_WEBSOCKET_MEDIA_INPUT_ACTION_STOP"] ∧
      (terminalState (envEndedEx.mediaState (p - 1)) = true ∨ 5 * (p - 1) > 600) :=
  controller_always_rearms cfgEx clipEx envEndedEx rfl

/-! ## Session lifecycle of `trigger_obs` (claim C7) -/

theorem obsStep_preserves (env : ObsEnv) (c : ObsCall) (s : ObsRun)
    (hc : c ≠ ObsCall.disconnect)
    (hh : s.calls.head? = some ObsCall.createClient)
    (hd : s.calls.count ObsCall.disconnect = 0) :
    (obsStep env c s).calls.head? = some ObsCall.createClient ∧
    (obsStep env c s).calls.count ObsCall.disconnect = 0 := by
  unfold obsStep
  split
  · exact ⟨hh, hd⟩
  · constructor
    · have hne : s.calls ≠ [] := by
        intro hnil
        rw [hnil] at hh
        simp at hh
      show (s.calls ++ [c]).head? = some ObsCall.createClient
      rw [List.head?_append_of_ne_nil _ hne]
      exact hh
    · simp [List.count_append, hd, List.count_cons, hc]

theorem waitLoop_preserves (env : ObsEnv) (input : String) :
    ∀ fuel k (s : ObsRun),
    s.calls.head? = some ObsCall.createClient →
    s.calls.count ObsCall.disconnect = 0 →
    (waitLoop env input k fuel s).calls.head? = some ObsCall.createClient ∧
    (waitLoop env input k fuel s).calls.count ObsCall.disconnect = 0 := by
  intro fuel
  induction fuel with
  | zero => intro k s hh hd; exact ⟨hh, hd⟩
  | succ fuel ih =>
    intro k s hh hd
    have hstep := obsStep_preserves env (.getMediaInputStatus input) s (by simp) hh hd
    simp only [waitLoop]
    split
    · exact hstep
    · split
      · exact hstep
      · split
        · exact hstep
        · exact ih (k + 1) _ hstep.1 hstep.2

/-- C7 (amended). On every `trigger_obs` run — success or failure alike —
the session handle is created fresh as the very first remote-surface action
of the run, and the run never explicitly releases it: no `disconnect` call
appears in any trace (the source has no close/disconnect, context manager or
`finally`; the handle is abandoned to garbage collection). -/
theorem session_fresh_never_released (cfg : Config) (file : ClipCandidate) (env : ObsEnv) :
    (trigger_obs cfg file env).calls.head? = some ObsCall.createClient ∧
    (trigger_obs cfg file env).calls.count ObsCall.disconnect = 0 := by
  have base : (obsStep env .createClient ⟨[], 0, false⟩).calls.head? = some ObsCall.createClient ∧
      (obsStep env .createClient ⟨[], 0, false⟩).calls.count ObsCall.disconnect = 0 := by
    simp [obsStep]
  have h2 := obsStep_preserves env (.setInputSettings cfg.obs_media_input "") _
    (by simp) base.1 base.2
  have h3 := obsStep_preserves env
    (.setInputSettings cfg.obs_media_input (resolveTarget cfg file)) _ (by simp) h2.1 h2.2
  have h4 := obsStep_preserves env (.setCurrentProgramScene cfg.obs_scene_alert) _
    (by simp) h3.1 h3.2
  have h5 := waitLoop_preserves env cfg.obs_media_input 122 0 _ h4.1 h4.2
  have h6 := obsStep_preserves env (.setCurrentProgramScene cfg.obs_scene_standby) _
    (by simp) h5.1 h5.2
  have h7 := obsStep_preserves env
    (.setInputSettings cfg.obs_media_input (containerErrorPath cfg)) _ (by simp) h6.1 h6.2
  have h8 := obsStep_preserves env
    (.triggerMediaInputAction cfg.obs_media_input "OBS_WEBSOCKET_MEDIA_INPUT_ACTION_STOP") _
    (by simp) h7.1 h7.2
  exact h8

/-- Counterexample to C7 as stated: a complete, fully successful run (no API
failure, playback ends on the first poll) whose trace contains zero
release/disconnect calls — the session is *not* released when the run
ends. -/
theorem session_release_cex :
    (trigger_obs cfgEx clipEx envEndedEx).failed = false ∧
    (trigger_obs cfgEx clipEx envEndedEx).calls.count ObsCall.disconnect = 0 := by
  constructor
  · rfl
  · rfl

/-- C8. The candidate-path substitution of `trigger_obs` is computed from
the host filesystem alone (`resolveTarget` takes no remote-surface
environment), before any remote call is issued.  If the clip is missing or
zero-length, the Loading call (trace position 2) hands the fallback error
clip joined under the container staging path, and every `setInputSettings`
call in the whole trace hands either the empty clearing value or that
fallback path — the host path never reaches the surface; if the clip exists
with nonzero size, the Loading call hands the original host path. -/
theorem fallback_target (cfg : Config) (file : ClipCandidate) (env : ObsEnv)
    (h : env.failAt = none) :
    ((file.exists_ = false ∨ file.size = 0) →
      (trigger_obs cfg file env).calls[2]? =
        some (.setInputSettings cfg.obs_media_input (containerErrorPath cfg)) ∧
      ∀ q, ObsCall.setInputSettings cfg.obs_media_input q ∈ (trigger_obs cfg file env).calls →
        q = "" ∨ q = containerErrorPath cfg) ∧
    ((file.exists_ = true ∧ file.size ≠ 0) →
      (trigger_obs cfg file env).calls[2]? =
        some (.setInputSettings cfg.obs_media_input file.path)) := by
  obtain ⟨p, hp1, hp2, heq, -⟩ := trigger_obs_trace cfg file env h
  have hmiss : (file.exists_ = false ∨ file.size = 0) →
      resolveTarget cfg file = containerErrorPath cfg := by
    intro hm
    unfold resolveTarget
    rcases hm with hm | hm <;> simp [hm]
  have hok : (file.exists_ = true ∧ file.size ≠ 0) →
      resolveTarget cfg file = file.path := by
    intro hm
    unfold resolveTarget
    simp [hm.1, hm.2]
  constructor
  · intro hm
    constructor
    · rw [heq]
      simp [hmiss hm]
    · intro q hq
      rw [heq] at hq
      simp only [ObsRun.calls] at hq
      rw [hmiss hm] at hq
      rcases List.mem_append.mp hq with hq2 | hq2
      · rcases List.mem_append.mp hq2 with hq3 | hq3
        · simp only [List.mem_cons, List.not_mem_nil, or_false] at hq3
          rcases hq3 with h1 | h1 | h1 | h1
          · exact absurd h1 (by simp)
          · left
            injection h1
          · right
            injection h1
          · exact absurd h1 (by simp)
        · exact absurd (List.eq_of_mem_replicate hq3) (by simp)
      · simp only [List.mem_cons, List.not_mem_nil, or_false] at hq2
        rcases hq2 with h1 | h1 | h1
        · exact absurd h1 (by simp)
        · right
          injection h1
        · exact absurd h1 (by simp)
  · intro hm
    rw [heq]
    simp [hok hm]

/-- A sample missing clip (the file does not exist, size reported 0). -/
def clipMissingEx : ClipCandidate := ⟨"/home/camerauser/driveway/2024/01/01/clip2.mp4", false, 0⟩

/-- Witness for `fallback_target` at a concrete missing clip. -/
theorem fallback_target_witness :
    ((clipMissingEx.exists_ = false ∨ clipMissingEx.size = 0) →
      (trigger_obs cfgEx clipMissingEx envEndedEx).calls[2]? =
        some (.setInputSettings cfgEx.obs_media_input (containerErrorPath cfgEx)) ∧
      ∀ q, ObsCall.setInputSettings cfgEx.obs_media_input q ∈
          (trigger_obs cfgEx clipMissingEx envEndedEx).calls →
        q = "" ∨ q = containerErrorPath cfgEx) ∧
    ((clipMissingEx.exists_ = true ∧ clipMissingEx.size ≠ 0) →
      (trigger_obs cfgEx clipMissingEx envEndedEx).calls[2]? =
        some (.setInputSettings cfgEx.obs_media_input clipMissingEx.path)) :=
  fallback_target cfgEx clipMissingEx envEndedEx rfl

/-! ## Day rollover (claim C6) -/

/-- `Nat.digitChar` is injective on single digits. -/
theorem digitChar_inj : ∀ a < 10, ∀ b < 10, Nat.digitChar a = Nat.digitChar b → a = b := by
  decide

/-- The character data underlying a resolved daily path. -/
theorem date_path_data (base : String) (d : PyDate) :
    (get_current_date_path base d).data =
      base.data ++
        ('/' :: Nat.digitChar (d.year / 1000 % 10) :: Nat.digitChar (d.year / 100 % 10) ::
         Nat.digitChar (d.year / 10 % 10) :: Nat.digitChar (d.year % 10) :: '/' ::
         Nat.digitChar (d.month / 10 % 10) :: Nat.digitChar (d.month % 10) :: '/' ::
         Nat.digitChar (d.day / 10 % 10) :: Nat.digitChar (d.day % 10) :: []) := by
  simp [get_current_date_path, strftimeYmd, pad4, pad2, String.data_append, List.append_assoc]

/-- C6 (amended).  The two rollover checks of `start_monitoring` are not the
same test.  While waiting for the directory to appear, the loop literally
compares the freshly resolved daily path against the path captured at cycle
start.  While watching, the loop compares only the day-of-month against the
day captured when watching began; a day-of-month change always changes the
freshly resolved path (so every rollover the watching check signals is a
real path change), but the converse fails for check times whose dates differ
while sharing the day-of-month. -/
theorem rollover_checks (base cp : String) (d0 dnow : PyDate)
    (h0 : d0.day < 100) (hn : dnow.day < 100) :
    (waiting_rollover base cp dnow = true ↔ get_current_date_path base dnow ≠ cp) ∧
    (watching_rollover d0.day dnow = true ↔ dnow.day ≠ d0.day) ∧
    (dnow.day ≠ d0.day →
      get_current_date_path base dnow ≠ get_current_date_path base d0) := by
  refine ⟨by simp [waiting_rollover], by simp [watching_rollover], ?_⟩
  intro hd heq
  apply hd
  have hdata : (get_current_date_path base dnow).data = (get_current_date_path base d0).data := by
    rw [heq]
  rw [date_path_data, date_path_data] at hdata
  have htail := List.append_cancel_left hdata
  simp only [List.cons.injEq, and_true] at htail
  obtain ⟨-, -, -, -, -, -, -, -, -, hd1, hd2⟩ := htail
  have e1 : dnow.day / 10 % 10 = d0.day / 10 % 10 :=
    digitChar_inj _ (Nat.mod_lt _ (by omega)) _ (Nat.mod_lt _ (by omega)) hd1
  have e2 : dnow.day % 10 = d0.day % 10 :=
    digitChar_inj _ (Nat.mod_lt _ (by omega)) _ (Nat.mod_lt _ (by omega)) hd2
  omega

/-- Witness for `rollover_checks` at concrete dates 2024-01-05 (captured)
and 2024-01-06 (fresh). -/
theorem rollover_checks_witness :
    (waiting_rollover "/home/camerauser/driveway"
        (get_current_date_path "/home/camerauser/driveway" ⟨2024, 1, 5⟩) ⟨2024, 1, 6⟩ = true ↔
      get_current_date_path "/home/camerauser/driveway" ⟨2024, 1, 6⟩ ≠
        get_current_date_path "/home/camerauser/driveway" ⟨2024, 1, 5⟩) ∧
    (watching_rollover (PyDate.mk 2024 1 5).day ⟨2024, 1, 6⟩ = true ↔
      (PyDate.mk 2024 1 6).day ≠ (PyDate.mk 2024 1 5).day) ∧
    ((PyDate.mk 2024 1 6).day ≠ (PyDate.mk 2024 1 5).day →
      get_current_date_path "/home/camerauser/driveway" ⟨2024, 1, 6⟩ ≠
        get_current_date_path "/home/camerauser/driveway" ⟨2024, 1, 5⟩) :=
  rollover_checks "/home/camerauser/driveway" _ ⟨2024, 1, 5⟩ ⟨2024, 1, 6⟩
    (by decide) (by decide)

/-- Counterexample to C6 as stated: at check times one calendar month apart
with the same day-of-month (2024-01-05 captured, 2024-02-05 fresh), the
watching-loop test `datetime.now().day != current_day` signals no rollover,
yet the freshly resolved daily path differs from the captured one — the
day-change test the watching loop performs is not equivalent to comparing
the fresh resolution against the captured path. -/
theorem rollover_day_only_cex :
    watching_rollover (PyDate.mk 2024 1 5).day ⟨2024, 2, 5⟩ = false ∧
    get_current_date_path "/home/camerauser/driveway" ⟨2024, 2, 5⟩ ≠
      get_current_date_path "/home/camerauser/driveway" ⟨2024, 1, 5⟩ := by
  constructor
  · decide
  · decide

/-! ## Maintenance sweeper: `cleanup_old_files`

`os.walk(base, topdown=False)` visits every directory bottom-up: all
subdirectories of a directory are fully processed (their old files deleted,
then the empty-and-stale ones removed) before the directory itself has its
files deleted and its own removal considered.  The tree is embedded
explicitly; each file carries a flag saying whether deleting it raises an
`OSError` (permission denied, vanished file), and each directory a flag for
its `os.rmdir`.  Crucially, the `try/except` in the source wraps the entire
walk, so a raised error propagates out of all loops at once; the embedding
threads an `ok` flag that stops all further processing once false. -/

/-- One regular file: an identifier, its stat mtime, and whether
deleting/stat-ing it raises. -/
structure FileEnt where
  id : Nat
  mtime : Int
  removeFails : Bool
deriving DecidableEq, Repr

/-- One directory: identifier, stat mtime, whether `os.rmdir` on it raises,
its regular files and its subdirectories. -/
inductive DirT where
  | node (id : Nat) (mtime : Int) (rmdirFails : Bool)
      (files : List FileEnt) (subdirs : List DirT) : DirT

/-- Directory identifier. -/
def DirT.id : DirT → Nat
  | .node i _ _ _ _ => i

/-- Directory mtime (`os.path.getmtime`). -/
def DirT.mtime : DirT → Int
  | .node _ mt _ _ _ => mt

/-- Files directly inside a directory. -/
def DirT.files : DirT → List FileEnt
  | .node _ _ _ fs _ => fs

/-- Immediate subdirectories. -/
def DirT.subdirs : DirT → List DirT
  | .node _ _ _ _ subs => subs

/-- The deletion test of the file loop:
`os.stat(file_path).st_mtime < now - retention_days * 86400`. -/
def isOld (now r : Int) (f : FileEnt) : Bool := decide (f.mtime < now - r * 86400)

/-- Result of sweeping one directory (or list of sibling directories):
what remains of it (`none` = removed), the ids of deleted files and removed
directories in processing order, and whether the walk is still running
(`ok = false` once an exception has propagated). -/
structure SweepOut where
  tree : Option DirT
  deleted : List Nat
  removed : List Nat
  ok : Bool

/-- The `for file in files` loop of `cleanup_old_files` over one directory's
files: delete each file older than the retention horizon; a failing deletion
raises, leaving that file and all later files in place.  Returns the
remaining files, the deleted ids in order, and the no-exception flag. -/
def sweepFiles (now r : Int) : List FileEnt → List FileEnt × List Nat × Bool
  | [] => ([], [], true)
  | f :: rest =>
    if isOld now r f then
      if f.removeFails then (f :: rest, [], false)
      else
        let res := sweepFiles now r rest
        (res.1, f.id :: res.2.1, res.2.2)
    else
      let res := sweepFiles now r rest
      (f :: res.1, res.2.1, res.2.2)

mutual

/-- One directory's share of the bottom-up walk: subdirectories first, then
its own files, then (when the walk reaches `root` in `os.walk` order) the
`not os.listdir(root) and root != base` / `folder_age > one_day_seconds`
removal check.  `isRoot` marks the base directory itself, which is never
removed. -/
def sweepDir (now r : Int) (isRoot : Bool) : DirT → SweepOut
  | .node i mt rf fs subs =>
    let sres := sweepSubdirs now r subs
    if sres.2.2.2 then
      let fres := sweepFiles now r fs
      if fres.2.2 then
        if fres.1.isEmpty && sres.1.isEmpty && !isRoot && decide (now - mt > 86400) then
          if rf then ⟨some (.node i mt rf fres.1 sres.1), sres.2.1 ++ fres.2.1, sres.2.2.1, false⟩
          else ⟨none, sres.2.1 ++ fres.2.1, sres.2.2.1 ++ [i], true⟩
        else ⟨some (.node i mt rf fres.1 sres.1), sres.2.1 ++ fres.2.1, sres.2.2.1, true⟩
      else ⟨some (.node i mt rf fres.1 sres.1), sres.2.1 ++ fres.2.1, sres.2.2.1, false⟩
    else ⟨some (.node i mt rf fs sres.1), sres.2.1, sres.2.2.1, false⟩

/-- Sibling directories in walk order; once an exception has propagated
(`ok = false`), later siblings are left untouched. -/
def sweepSubdirs (now r : Int) : List DirT → List DirT × List Nat × List Nat × Bool
  | [] => ([], [], [], true)
  | d :: rest =>
    let o := sweepDir now r false d
    if o.ok then
      let rres := sweepSubdirs now r rest
      (o.tree.toList ++ rres.1, o.deleted ++ rres.2.1, o.removed ++ rres.2.2.1, rres.2.2.2)
    else
      (o.tree.toList ++ rest, o.deleted, o.removed, false)

end

/-- `cleanup_old_files`: one maintenance sweep from the configured base
path.  The base directory itself is the walk root. -/
def cleanup_old_files (cfg : Config) (now : Int) (root : DirT) : SweepOut :=
  sweepDir now cfg.retention_days true root

/-- The `except` clause of `cleanup_old_files` logs `Cleanup Error: {e}`
exactly when an exception propagated out of the walk. -/
def cleanupErrorLogged (cfg : Config) (now : Int) (root : DirT) : Bool :=
  !(cleanup_old_files cfg now root).ok

mutual

/-- All files of a subtree in walk (deletion) order: files of
subdirectories first (bottom-up), then the directory's own files. -/
def allFiles : DirT → List FileEnt
  | .node _ _ _ fs subs => allFilesL subs ++ fs

/-- All files of sibling subtrees in walk order. -/
def allFilesL : List DirT → List FileEnt
  | [] => []
  | d :: rest => allFiles d ++ allFilesL rest

end

mutual

/-- The spec-side removal condition for a (non-root) directory: every file
in it is older than the retention horizon (so the file pass empties it),
every subdirectory is itself removed, and its own mtime is more than 24
hours old. -/
def removedIdeal (now r : Int) : DirT → Bool
  | .node _ mt _ fs subs =>
    fs.all (isOld now r) && removedIdealL now r subs && decide (now - mt > 86400)

/-- `removedIdeal` over sibling lists. -/
def removedIdealL (now r : Int) : List DirT → Bool
  | [] => true
  | d :: rest => removedIdeal now r d && removedIdealL now r rest

end

mutual

/-- The directory ids an error-free sweep removes, in walk order. -/
def idealRemoved (now r : Int) (isRoot : Bool) : DirT → List Nat
  | .node i mt rf fs subs =>
    idealRemovedL now r subs ++
      (if !isRoot && removedIdeal now r (.node i mt rf fs subs) then [i] else [])

/-- `idealRemoved` over sibling lists. -/
def idealRemovedL (now r : Int) : List DirT → List Nat
  | [] => []
  | d :: rest => idealRemoved now r false d ++ idealRemovedL now r rest

end

mutual

/-- No deletion or rmdir anywhere in the subtree raises. -/
def noFail : DirT → Bool
  | .node _ _ rf fs subs => !rf && fs.all (fun f => !f.removeFails) && noFailL subs

/-- `noFail` over sibling lists. -/
def noFailL : List DirT → Bool
  | [] => true
  | d :: rest => noFail d && noFailL rest

end

/-- `a` is a front segment (prefix) of `b`. -/
def IsFrontOf (a b : List Nat) : Prop := ∃ t, b = a ++ t

theorem front_refl (a : List Nat) : IsFrontOf a a := ⟨[], by simp⟩

theorem front_extend {a b : List Nat} (c : List Nat) (h : IsFrontOf a b) :
    IsFrontOf a (b ++ c) := by
  obtain ⟨t, ht⟩ := h
  exact ⟨t ++ c, by rw [ht, List.append_assoc]⟩

theorem front_shift {c d : List Nat} (a : List Nat) (h : IsFrontOf c d) :
    IsFrontOf (a ++ c) (a ++ d) := by
  obtain ⟨t, ht⟩ := h
  exact ⟨t, by rw [ht, List.append_assoc]⟩

theorem filter_not_eq_nil {α : Type} (p : α → Bool) (l : List α) :
    l.filter (fun a => !p a) = [] ↔ l.all p = true := by
  simp [List.filter_eq_nil_iff, List.all_eq_true]

/-- Behaviour of the file loop: the deleted ids always form a front segment
of the ids of the old files in order; when no exception is raised the old
files are exactly deleted and the fresh ones exactly kept; and when no file
in the list has a failing delete, no exception is raised. -/
theorem sweepFiles_spec (now r : Int) : ∀ fs : List FileEnt,
    IsFrontOf (sweepFiles now r fs).2.1 ((fs.filter (isOld now r)).map FileEnt.id) ∧
    ((sweepFiles now r fs).2.2 = true →
      (sweepFiles now r fs).2.1 = (fs.filter (isOld now r)).map FileEnt.id ∧
      (sweepFiles now r fs).1 = fs.filter (fun f => !isOld now r f)) ∧
    (fs.all (fun f => !f.removeFails) = true → (sweepFiles now r fs).2.2 = true) := by
  intro fs
  induction fs with
  | nil => exact ⟨front_refl [], fun _ => ⟨rfl, rfl⟩, fun _ => rfl⟩
  | cons f rest ih =>
    obtain ⟨ihf, ihok, ihnf⟩ := ih
    by_cases hold : isOld now r f = true
    · by_cases hrf : f.removeFails = true
      · refine ⟨⟨((f :: rest).filter (isOld now r)).map FileEnt.id, ?_⟩, ?_, ?_⟩
        · simp [sweepFiles, hold, hrf]
        · intro hok
          simp [sweepFiles, hold, hrf] at hok
        · intro hnf
          simp [List.all_cons, hrf] at hnf
      · refine ⟨?_, ?_, ?_⟩
        · obtain ⟨t, ht⟩ := ihf
          refine ⟨t, ?_⟩
          simp [sweepFiles, hold, hrf, List.filter_cons, ht]
        · intro hok
          simp only [sweepFiles, hold, if_true, hrf, if_false, Bool.false_eq_true] at hok ⊢
          obtain ⟨h1, h2⟩ := ihok hok
          simp [List.filter_cons, hold, h1, h2]
        · intro hnf
          simp only [List.all_cons, Bool.and_eq_true] at hnf
          simp [sweepFiles, hold, hrf, ihnf hnf.2]
    · refine ⟨?_, ?_, ?_⟩
      · obtain ⟨t, ht⟩ := ihf
        refine ⟨t, ?_⟩
        simp [sweepFiles, hold, List.filter_cons, ht]
      · intro hok
        simp only [sweepFiles, hold, Bool.false_eq_true, if_false] at hok ⊢
        obtain ⟨h1, h2⟩ := ihok hok
        simp [List.filter_cons, hold, h1, h2]
      · intro hnf
        simp only [List.all_cons, Bool.and_eq_true] at hnf
        simp [sweepFiles, hold, ihnf hnf.2]

mutual

/-- Joint behaviour of the walk on one directory: deleted/removed ids are
always front segments of the error-free ideal lists; when no exception
propagated they are exactly the ideal lists and the directory is removed
precisely under the spec-side condition; and a subtree with no failing
operations never raises. -/
theorem sweepDir_spec (now r : Int) (b : Bool) (d : DirT) :
    IsFrontOf (sweepDir now r b d).deleted (((allFiles d).filter (isOld now r)).map FileEnt.id) ∧
    IsFrontOf (sweepDir now r b d).removed (idealRemoved now r b d) ∧
    ((sweepDir now r b d).ok = true →
      (sweepDir now r b d).deleted = ((allFiles d).filter (isOld now r)).map FileEnt.id ∧
      (sweepDir now r b d).removed = idealRemoved now r b d ∧
      ((sweepDir now r b d).tree = none ↔ (b = false ∧ removedIdeal now r d = true))) ∧
    (noFail d = true → (sweepDir now r b d).ok = true) := by
  obtain ⟨i, mt, rf, fs, subs⟩ := d
  obtain ⟨hsubF, hsubR, hsubOk, hsubNf⟩ := sweepSubdirs_spec now r subs
  obtain ⟨hfF, hfOk, hfNf⟩ := sweepFiles_spec now r fs
  simp only [sweepDir, allFiles, noFail, removedIdeal, idealRemoved,
    List.filter_append, List.map_append]
  cases hok1 : (sweepSubdirs now r subs).2.2.2 with
  | false =>
    simp only [hok1, Bool.false_eq_true, if_false]
    refine ⟨front_extend _ hsubF, front_extend _ hsubR, ?_, ?_⟩
    · intro hok
      simp at hok
    · intro hnf
      simp only [Bool.and_eq_true] at hnf
      have := hsubNf hnf.2
      rw [hok1] at this
      simp at this
  | true =>
    obtain ⟨hSdel, hSrem, hStree⟩ := hsubOk hok1
    simp only [hok1, if_true]
    cases hok2 : (sweepFiles now r fs).2.2 with
    | false =>
      simp only [hok2, Bool.false_eq_true, if_false]
      refine ⟨?_, ?_, ?_, ?_⟩
      · rw [hSdel]
        exact front_shift _ hfF
      · rw [hSrem]
        exact front_extend _ (front_refl _)
      · intro hok
        simp at hok
      · intro hnf
        simp only [Bool.and_eq_true] at hnf
        have := hfNf hnf.1.2
        rw [hok2] at this
        simp at this
    | true =>
      obtain ⟨hFdel, hFkeep⟩ := hfOk hok2
      simp only [hok2, if_true]
      have h1 : (sweepFiles now r fs).1.isEmpty = fs.all (isOld now r) := by
        rw [hFkeep, Bool.eq_iff_iff]
        simp only [List.isEmpty_iff]
        exact filter_not_eq_nil _ _
      have h2 : (sweepSubdirs now r subs).1.isEmpty = removedIdealL now r subs := by
        rw [Bool.eq_iff_iff]
        simp only [List.isEmpty_iff]
        exact hStree
      cases hcond : ((sweepFiles now r fs).1.isEmpty && (sweepSubdirs now r subs).1.isEmpty
          && !b && decide (now - mt > 86400)) with
      | true =>
        have hc := hcond
        simp only [Bool.and_eq_true] at hc
        obtain ⟨⟨⟨hFe, hSe⟩, hbF⟩, hAge⟩ := hc
        have hfsAll : fs.all (isOld now r) = true := by rw [← h1]; exact hFe
        have hsubsAll : removedIdealL now r subs = true := by rw [← h2]; exact hSe
        simp only [hcond, if_true]
        cases hrf2 : rf with
        | true =>
          simp only [if_true]
          refine ⟨?_, ?_, ?_, ?_⟩
          · rw [hSdel, hFdel]
            exact front_refl _
          · rw [hSrem]
            exact front_extend _ (front_refl _)
          · intro hok
            simp at hok
          · intro hnf
            simp only [hrf2, Bool.and_eq_true] at hnf
            simp at hnf
        | false =>
          simp only [Bool.false_eq_true, if_false]
          refine ⟨?_, ?_, ?_, ?_⟩
          · rw [hSdel, hFdel]
            exact front_refl _
          · rw [hSrem]
            simp only [hbF, hfsAll, hsubsAll, hAge, Bool.and_true, Bool.true_and, if_true]
            exact front_refl _
          · intro _
            refine ⟨by rw [hSdel, hFdel], ?_, ?_⟩
            · rw [hSrem]
              simp only [hbF, hfsAll, hsubsAll, hAge, Bool.and_true, Bool.true_and, if_true]
            · exact iff_of_true trivial ⟨by simpa using hbF, by simp [hfsAll, hsubsAll, hAge]⟩
          · intro _
            trivial
      | false =>
        have hite : (!b && (fs.all (isOld now r) && removedIdealL now r subs
            && decide (now - mt > 86400))) = false := by
          cases hcase : (!b && (fs.all (isOld now r) && removedIdealL now r subs
              && decide (now - mt > 86400))) with
          | false => rfl
          | true =>
            exfalso
            simp only [Bool.and_eq_true] at hcase
            obtain ⟨hb, ⟨hall, hrem⟩, hage⟩ := hcase
            have hFe2 : (sweepFiles now r fs).1.isEmpty = true := h1.trans hall
            have hSe2 : (sweepSubdirs now r subs).1.isEmpty = true := h2.trans hrem
            rw [hFe2, hSe2, hb, hage] at hcond
            simp at hcond
        simp only [hcond, Bool.false_eq_true, if_false]
        refine ⟨?_, ?_, ?_, ?_⟩
        · rw [hSdel, hFdel]
          exact front_refl _
        · rw [hSrem]
          simp only [hite, Bool.false_eq_true, if_false]
          exact front_extend _ (front_refl _)
        · intro _
          refine ⟨by rw [hSdel, hFdel], ?_, ?_⟩
          · rw [hSrem]
            simp only [hite, Bool.false_eq_true, if_false, List.append_nil]
          · apply iff_of_false
            · simp
            · rintro ⟨hb', hri⟩
              simp only [Bool.and_eq_true] at hri
              obtain ⟨⟨hall, hrem⟩, hage⟩ := hri
              rw [hb'] at hite
              simp only [Bool.not_false, Bool.true_and] at hite
              rw [hall, hrem, hage] at hite
              simp at hite
        · intro _
          trivial

theorem sweepSubdirs_spec (now r : Int) (l : List DirT) :
    IsFrontOf (sweepSubdirs now r l).2.1 (((allFilesL l).filter (isOld now r)).map FileEnt.id) ∧
    IsFrontOf (sweepSubdirs now r l).2.2.1 (idealRemovedL now r l) ∧
    ((sweepSubdirs now r l).2.2.2 = true →
      (sweepSubdirs now r l).2.1 = ((allFilesL l).filter (isOld now r)).map FileEnt.id ∧
      (sweepSubdirs now r l).2.2.1 = idealRemovedL now r l ∧
      ((sweepSubdirs now r l).1 = [] ↔ removedIdealL now r l = true)) ∧
    (noFailL l = true → (sweepSubdirs now r l).2.2.2 = true) := by
  cases l with
  | nil =>
    refine ⟨⟨[], by simp [sweepSubdirs, allFilesL]⟩, ⟨[], by simp [sweepSubdirs, idealRemovedL]⟩,
      fun _ => ⟨by simp [sweepSubdirs, allFilesL], by simp [sweepSubdirs, idealRemovedL],
        by simp [sweepSubdirs, removedIdealL]⟩,
      fun _ => by simp [sweepSubdirs]⟩
  | cons d rest =>
    obtain ⟨hdF, hdR, hdOk, hdNf⟩ := sweepDir_spec now r false d
    obtain ⟨hrF, hrR, hrOk, hrNf⟩ := sweepSubdirs_spec now r rest
    simp only [sweepSubdirs, allFilesL, idealRemovedL, removedIdealL, noFailL,
      List.filter_append, List.map_append]
    cases ho : (sweepDir now r false d).ok with
    | false =>
      simp only [ho, Bool.false_eq_true, if_false]
      refine ⟨front_extend _ hdF, front_extend _ hdR, ?_, ?_⟩
      · intro hok
        simp at hok
      · intro hnf
        simp only [Bool.and_eq_true] at hnf
        have := hdNf hnf.1
        rw [ho] at this
        simp at this
    | true =>
      obtain ⟨hDdel, hDrem, hDtree⟩ := hdOk ho
      simp only [ho, if_true]
      refine ⟨?_, ?_, ?_, ?_⟩
      · rw [hDdel]
        exact front_shift _ hrF
      · rw [hDrem]
        exact front_shift _ hrR
      · intro hok
        obtain ⟨hRdel, hRrem, hRtree⟩ := hrOk hok
        refine ⟨by rw [hDdel, hRdel], by rw [hDrem, hRrem], ?_⟩
        rw [List.append_eq_nil]
        constructor
        · rintro ⟨hx1, hx2⟩
          have ht : (sweepDir now r false d).tree = none := by
            cases htr : (sweepDir now r false d).tree with
            | none => rfl
            | some x =>
              rw [htr] at hx1
              simp [Option.toList] at hx1
          simp [(hDtree.mp ht).2, hRtree.mp hx2]
        · intro hco
          simp only [Bool.and_eq_true] at hco
          have hx1 : (sweepDir now r false d).tree = none := hDtree.mpr ⟨rfl, hco.1⟩
          rw [hx1]
          simp [Option.toList, hRtree.mpr hco.2]
      · intro hnf
        simp only [Bool.and_eq_true] at hnf
        exact hrNf hnf.2

end

/-- C3. In a sweep in which no I/O operation fails, a file anywhere in the
storage tree is deleted iff its age `now - mtime` strictly exceeds
`retention_days * 86400`; a file with age at most the horizon is never
deleted, regardless of whether its directory is empty. -/
theorem retention_cutoff (cfg : Config) (now : Int) (root : DirT) (f : FileEnt)
    (hnf : noFail root = true)
    (hnd : ((allFiles root).map FileEnt.id).Nodup)
    (hf : f ∈ allFiles root) :
    (f.id ∈ (cleanup_old_files cfg now root).deleted ↔
      now - f.mtime > cfg.retention_days * 86400) := by
  obtain ⟨-, -, hok3, hnf4⟩ := sweepDir_spec now cfg.retention_days true root
  have hdel := (hok3 (hnf4 hnf)).1
  unfold cleanup_old_files
  rw [hdel]
  constructor
  · intro hmem
    obtain ⟨g, hg, hgid⟩ := List.mem_map.mp hmem
    have hgmem : g ∈ allFiles root := List.mem_of_mem_filter hg
    have hgf : g = f := List.inj_on_of_nodup_map hnd hgmem hf hgid
    have hold : isOld now cfg.retention_days g = true := List.of_mem_filter hg
    rw [hgf] at hold
    unfold isOld at hold
    simp at hold
    omega
  · intro hage
    exact List.mem_map.mpr ⟨f, List.mem_filter.mpr ⟨hf, by unfold isOld; simp; omega⟩, rfl⟩

/-- Witness for `retention_cutoff`: a two-file tree, retention 7 days,
`now` ten days after both files' mtime. -/
theorem retention_cutoff_witness :
    noFail (.node 0 0 false [⟨1, 0, false⟩, ⟨2, 800000, false⟩] []) = true ∧
    (((1 : Nat) ∈
        (cleanup_old_files cfgEx 864000
          (.node 0 0 false [⟨1, 0, false⟩, ⟨2, 800000, false⟩] [])).deleted) ↔
      864000 - 0 > cfgEx.retention_days * 86400) :=
  ⟨by decide,
    retention_cutoff cfgEx 864000 (.node 0 0 false [⟨1, 0, false⟩, ⟨2, 800000, false⟩] [])
      ⟨1, 0, false⟩ (by decide) (by decide) (by decide)⟩

/-- The removal condition, spelled out through the accessors. -/
theorem removedIdeal_iff (now r : Int) (d : DirT) :
    removedIdeal now r d = true ↔
      (d.files.all (isOld now r) = true ∧ removedIdealL now r d.subdirs = true ∧
       now - d.mtime > 86400) := by
  obtain ⟨i, mt, rf, fs, subs⟩ := d
  simp [removedIdeal, DirT.files, DirT.subdirs, DirT.mtime, and_assoc]

/-- C4. In a sweep in which no I/O operation fails: a directory visited as a
non-root node is removed iff every file directly in it is past the retention
horizon, every subdirectory of it is itself removed (children are processed
before parents, so this is exactly "empty after its files have been
processed"), and its own modification time is more than 24 hours old; a
directory whose mtime is 24 hours old or fresher is never removed; and the
base root directory is never removed. -/
theorem dir_removal_rule (cfg : Config) (now : Int) (d : DirT)
    (hnf : noFail d = true) :
    ((sweepDir now cfg.retention_days false d).tree = none ↔
      (d.files.all (isOld now cfg.retention_days) = true ∧
       removedIdealL now cfg.retention_days d.subdirs = true ∧
       now - d.mtime > 86400)) ∧
    (now - d.mtime ≤ 86400 → (sweepDir now cfg.retention_days false d).tree ≠ none) ∧
    (cleanup_old_files cfg now d).tree ≠ none := by
  obtain ⟨-, -, hok3, hnf4⟩ := sweepDir_spec now cfg.retention_days false d
  have hiff := (hok3 (hnf4 hnf)).2.2
  refine ⟨?_, ?_, ?_⟩
  · rw [hiff]
    simp [removedIdeal_iff]
  · intro hage h
    have hri := (hiff.mp h).2
    rw [removedIdeal_iff] at hri
    obtain ⟨-, -, h3⟩ := hri
    omega
  · obtain ⟨-, -, hok3r, hnf4r⟩ := sweepDir_spec now cfg.retention_days true d
    have hiffr := (hok3r (hnf4r hnf)).2.2
    intro h
    have := (hiffr.mp h).1
    simp at this

/-- Witness for `dir_removal_rule`: an empty directory whose mtime is more
than a day old. -/
theorem dir_removal_rule_witness :
    ((sweepDir 100000 cfgEx.retention_days false (.node 5 0 false [] [])).tree = none ↔
      ((DirT.node 5 0 false [] []).files.all (isOld 100000 cfgEx.retention_days) = true ∧
       removedIdealL 100000 cfgEx.retention_days (DirT.node 5 0 false [] []).subdirs = true ∧
       (100000 : Int) - (DirT.node 5 0 false [] []).mtime > 86400)) ∧
    ((100000 : Int) - (DirT.node 5 0 false [] []).mtime ≤ 86400 →
      (sweepDir 100000 cfgEx.retention_days false (.node 5 0 false [] [])).tree ≠ none) ∧
    (cleanup_old_files cfgEx 100000 (.node 5 0 false [] [])).tree ≠ none :=
  dir_removal_rule cfgEx 100000 (.node 5 0 false [] []) (by decide)

/-- C5 (amended). If deleting or removing one individual entry raises an
I/O error, the sweep logs `Cleanup Error` — but it does **not** continue:
the `try/except` wraps the whole walk, so the first error aborts every
remaining entry.  What was already deleted stays deleted: the realised
deletion and removal lists are front segments of what an error-free sweep
would have done. -/
theorem sweep_abort_on_error (cfg : Config) (now : Int) (root : DirT)
    (hfail : (cleanup_old_files cfg now root).ok = false) :
    cleanupErrorLogged cfg now root = true ∧
    IsFrontOf (cleanup_old_files cfg now root).deleted
      (((allFiles root).filter (isOld now cfg.retention_days)).map FileEnt.id) ∧
    IsFrontOf (cleanup_old_files cfg now root).removed
      (idealRemoved now cfg.retention_days true root) := by
  obtain ⟨h1, h2, -, -⟩ := sweepDir_spec now cfg.retention_days true root
  refine ⟨?_, h1, h2⟩
  unfold cleanupErrorLogged
  rw [hfail]
  rfl

/-- Witness for `sweep_abort_on_error` on a concrete failing sweep. -/
theorem sweep_abort_on_error_witness :
    cleanupErrorLogged cfgEx 1000000 (.node 0 0 false [⟨1, 0, true⟩, ⟨2, 0, false⟩] []) = true ∧
    IsFrontOf
      (cleanup_old_files cfgEx 1000000
        (.node 0 0 false [⟨1, 0, true⟩, ⟨2, 0, false⟩] [])).deleted
      (((allFiles (.node 0 0 false [⟨1, 0, true⟩, ⟨2, 0, false⟩] [])).filter
          (isOld 1000000 cfgEx.retention_days)).map FileEnt.id) ∧
    IsFrontOf
      (cleanup_old_files cfgEx 1000000
        (.node 0 0 false [⟨1, 0, true⟩, ⟨2, 0, false⟩] [])).removed
      (idealRemoved 1000000 cfgEx.retention_days true
        (.node 0 0 false [⟨1, 0, true⟩, ⟨2, 0, false⟩] [])) :=
  sweep_abort_on_error cfgEx 1000000 (.node 0 0 false [⟨1, 0, true⟩, ⟨2, 0, false⟩] [])
    (by decide)

/-- Counterexample to C5 as stated: in a root directory with two
past-retention files where deleting the first raises, the sweep logs the
error but deletes nothing at all — the second file, although eligible and
itself unproblematic, is never processed, because the single `try/except`
wraps the entire walk and the first error aborts the rest of the sweep. -/
theorem sweep_abort_cex :
    isOld 1000000 cfgEx.retention_days ⟨2, 0, false⟩ = true ∧
    (cleanup_old_files cfgEx 1000000
      (.node 0 0 false [⟨1, 0, true⟩, ⟨2, 0, false⟩] [])).deleted = [] ∧
    cleanupErrorLogged cfgEx 1000000 (.node 0 0 false [⟨1, 0, true⟩, ⟨2, 0, false⟩] []) = true := by
  refine ⟨by decide, by decide, by decide⟩

/-! ## Dependency health check: `check_docker_health`

One call per configured container name runs
`docker inspect -f ... container`; the query environment returns either the
raised error text (a failed subprocess, folded through the per-iteration
`except` clause as its message) or the raw stdout.  A successful query whose
stripped stdout is not `"true"` raises
`Container {name} is not running.`, caught by the same clause.  Each failure
sends one mail alert; the loop body is wrapped in `try/except`, so the loop
always advances to the next container. -/

/-- Python `str.strip` (whitespace trim) on the captured stdout. -/
def strTrim (s : String) : String :=
  ⟨((s.data.dropWhile Char.isWhitespace).reverse.dropWhile Char.isWhitespace).reverse⟩

/-- One alert handed to `send_alert_email`. -/
structure Alert where
  subject : String
  body : String
  recipient : String
deriving DecidableEq, Repr

/-- Does the health check treat container `c` as failing? Either the inspect
query raised, or its stripped stdout is not `"true"`. -/
def inspectFails (q : String → Except String String) (c : String) : Bool :=
  match q c with
  | .error _ => true
  | .ok out => !(strTrim out == "true")

/-- The error text reaching the alert body: the query's own error, or the
message of the explicitly raised not-running exception. -/
def errTextOf (q : String → Except String String) (c : String) : String :=
  match q c with
  | .error e => e
  | .ok _ => "Container " ++ c ++ " is not running."

/-- The alert `check_docker_health` sends for a failing container. -/
def alertFor (sendTo nowStr : String) (q : String → Except String String)
    (c : String) : Alert :=
  ⟨"CRITICAL: Docker Container " ++ c ++ " Down",
   "Health check failed for " ++ c ++ " at " ++ nowStr ++ ".\nError: " ++ errTextOf q c,
   sendTo⟩

/-- `check_docker_health`: for each required container in order, query its
running state and alert on failure.  Returns the containers queried (every
iteration queries, regardless of earlier failures) and the alerts sent. -/
def check_docker_health (containers : List String) (sendTo : String)
    (q : String → Except String String) (nowStr : String) : List String × List Alert :=
  match containers with
  | [] => ([], [])
  | c :: rest =>
    let res := check_docker_health rest sendTo q nowStr
    (c :: res.1,
      (if inspectFails q c then [alertFor sendTo nowStr q c] else []) ++ res.2)

theorem health_queried (sendTo nowStr : String) (q : String → Except String String) :
    ∀ containers, (check_docker_health containers sendTo q nowStr).1 = containers := by
  intro containers
  induction containers with
  | nil => rfl
  | cons c rest ih => simp [check_docker_health, ih]

theorem health_alerts_eq (sendTo nowStr : String) (q : String → Except String String) :
    ∀ containers, (check_docker_health containers sendTo q nowStr).2 =
      (containers.filter (inspectFails q)).map (alertFor sendTo nowStr q) := by
  intro containers
  induction containers with
  | nil => rfl
  | cons c rest ih =>
    cases hf : inspectFails q c with
    | true => simp [check_docker_health, hf, ih, List.filter_cons]
    | false => simp [check_docker_health, hf, ih, List.filter_cons]

theorem health_subject_inj {c1 c2 : String}
    (h : ("CRITICAL: Docker Container " ++ c1 ++ " Down" : String) =
      "CRITICAL: Docker Container " ++ c2 ++ " Down") : c1 = c2 := by
  have hd := congrArg String.data h
  simp only [String.data_append] at hd
  rw [List.append_assoc, List.append_assoc] at hd
  have h2 := List.append_cancel_left hd
  have h3 := List.append_cancel_right h2
  exact String.ext h3

theorem alertFor_inj (sendTo nowStr : String) (q : String → Except String String) :
    Function.Injective (alertFor sendTo nowStr q) := by
  intro c1 c2 h
  have hs := congrArg Alert.subject h
  simp only [alertFor] at hs
  exact health_subject_inj hs

/-- C9. One health check queries every configured dependency even when
earlier ones fail (no short-circuit): the queried list is always the whole
container list.  Every dependency whose query errors or reports a state
other than running receives exactly one alert, whose subject contains the
dependency's name and whose body contains the underlying error text; a
dependency reported running receives zero alerts (no alert with its subject
is ever sent). -/
theorem health_check_per_dependency (containers : List String) (sendTo nowStr : String)
    (q : String → Except String String) (c : String)
    (hmem : c ∈ containers) (hnd : containers.Nodup) :
    (check_docker_health containers sendTo q nowStr).1 = containers ∧
    (inspectFails q c = true →
      ((check_docker_health containers sendTo q nowStr).2.count
        (alertFor sendTo nowStr q c) = 1 ∧
       (∃ pre post, (alertFor sendTo nowStr q c).subject.data = pre ++ c.data ++ post) ∧
       (∃ pre post,
         (alertFor sendTo nowStr q c).body.data = pre ++ (errTextOf q c).data ++ post))) ∧
    (inspectFails q c = false →
      ∀ a ∈ (check_docker_health containers sendTo q nowStr).2,
        a.subject ≠ (alertFor sendTo nowStr q c).subject) := by
  refine ⟨health_queried sendTo nowStr q containers, ?_, ?_⟩
  · intro hfail
    refine ⟨?_, ?_, ?_⟩
    · rw [health_alerts_eq]
      rw [List.count_map_of_injective _ _ (alertFor_inj sendTo nowStr q)]
      exact List.count_eq_one_of_mem (hnd.filter _)
        (List.mem_filter.mpr ⟨hmem, hfail⟩)
    · refine ⟨("CRITICAL: Docker Container ").data, (" Down").data, ?_⟩
      simp [alertFor, String.data_append, List.append_assoc]
    · refine ⟨("Health check failed for " ++ c ++ " at " ++ nowStr ++ ".\nError: ").data,
        [], ?_⟩
      simp [alertFor, String.data_append, List.append_assoc]
  · intro hok a ha hsub
    rw [health_alerts_eq] at ha
    obtain ⟨c2, hc2, hac2⟩ := List.mem_map.mp ha
    have hfail2 : inspectFails q c2 = true := List.of_mem_filter hc2
    have : c2 = c := by
      apply health_subject_inj
      have := congrArg Alert.subject hac2
      simp only [alertFor] at this hsub
      rw [← this] at hsub
      exact hsub
    rw [this] at hfail2
    rw [hok] at hfail2
    simp at hfail2

/-- Witness for `health_check_per_dependency` at the spec's scenario:
`mediamtx` reports not-running, `obs_compositor` reports running. -/
theorem health_check_witness :
    let q : String → Except String String := fun c =>
      if c == "mediamtx" then Except.ok "false\n" else Except.ok "true\n"
    (check_docker_health ["obs_compositor", "mediamtx"] "root" q "now").1 =
      ["obs_compositor", "mediamtx"] ∧
    (inspectFails q "mediamtx" = true →
      ((check_docker_health ["obs_compositor", "mediamtx"] "root" q "now").2.count
        (alertFor "root" "now" q "mediamtx") = 1 ∧
       (∃ pre post,
         (alertFor "root" "now" q "mediamtx").subject.data =
           pre ++ ("mediamtx").data ++ post) ∧
       (∃ pre post,
         (alertFor "root" "now" q "mediamtx").body.data =
           pre ++ (errTextOf q "mediamtx").data ++ post))) ∧
    (inspectFails q "mediamtx" = false →
      ∀ a ∈ (check_docker_health ["obs_compositor", "mediamtx"] "root" q "now").2,
        a.subject ≠ (alertFor "root" "now" q "mediamtx").subject) :=
  health_check_per_dependency ["obs_compositor", "mediamtx"] "root" "now"
    (fun c => if c == "mediamtx" then Except.ok "false\n" else Except.ok "true\n")
    "mediamtx" (by decide) (by decide)
